import Mathlib

/-!
Shallow embedding of the synchronized multi-viewer manga webserver
(`webserver/src/lib.rs`): the shared `AppState` (collection, cursor, user
registry, vote map), the consensus check, cursor navigation, snapshot
projection, broadcast, the websocket message handler and the image handler.
HashMaps are modelled as association lists keyed by `Nat` uuids; panicking
indexing and file I/O are modelled with `Option`.
-/

namespace MangaWeb

/-- One manga item of the collection: title, score, comment and ordered
page file paths (mirrors `struct Manga`). -/
structure Manga where
  name : String
  score : Int
  comment : String
  page_paths : List String
deriving DecidableEq

/-- A navigation vote direction (mirrors `enum Action`). -/
inductive Action where
  | next
  | prev
deriving DecidableEq

/-- The snapshot sent to clients (mirrors `struct ClientState`). -/
structure ClientState where
  manga_name : String
  page_src : String
  manga_score : Int
  manga_comment : String
  manga_pos : Nat × Nat
  page_pos : Nat × Nat
deriving DecidableEq

/-- The shared server state (mirrors `struct AppState`).  A user's value is
its outbound message queue (the `mpsc` channel of `struct User`), holding the
snapshots enqueued to it; `users` and `actions` model the two `HashMap`s as
association lists. -/
structure AppState where
  mangas : List Manga
  current_manga : Nat
  current_page : Nat
  users : List (Nat × List ClientState)
  actions : List (Nat × Option Action)
deriving DecidableEq

/-- `HashMap::insert`: replace the value at an existing key, else add the
entry. -/
def insertEntry {α : Type} (k : Nat) (v : α) : List (Nat × α) → List (Nat × α)
  | [] => [(k, v)]
  | (k', v') :: rest =>
      if k' = k then (k, v) :: rest else (k', v') :: insertEntry k v rest

/-- `HashMap::get`: first value stored at a key. -/
def lookupEntry {α : Type} (k : Nat) : List (Nat × α) → Option α
  | [] => none
  | (k', v') :: rest => if k' = k then some v' else lookupEntry k rest

/-- `HashMap::remove`: drop every entry at a key (at most one on states with
distinct keys, as a `HashMap` guarantees). -/
def eraseEntry {α : Type} (k : Nat) (l : List (Nat × α)) : List (Nat × α) :=
  l.filter (fun p => p.1 != k)

/-- Reset every vote to `None` (the `for action in ... { *action = None }`
loops). -/
def clearVotes (l : List (Nat × Option Action)) : List (Nat × Option Action) :=
  l.map (fun p => (p.1, none))

/-- `AppState::from_displayed`: initial state, cursor at `(0, 0)`, no users,
no votes. -/
def from_displayed (mangas : List Manga) : AppState :=
  { mangas := mangas, current_manga := 0, current_page := 0,
    users := [], actions := [] }

/-- The `page_src` URL built by `format!("/image?manga={}&page={}", ..)`. -/
def page_src_of (manga page : Nat) : String :=
  "/image?manga=" ++ toString manga ++ "&page=" ++ toString page

/-- `AppState::get_client_state`: project the snapshot of the current cursor;
`none` models the panic of `self.mangas[self.current_manga]` when the item
index is out of bounds. -/
def get_client_state (s : AppState) : Option ClientState :=
  match s.mangas[s.current_manga]? with
  | none => none
  | some manga =>
      some { manga_name := manga.name,
             page_src := page_src_of s.current_manga s.current_page,
             manga_score := manga.score,
             manga_comment := manga.comment,
             manga_pos := (s.current_manga + 1, s.mangas.length),
             page_pos := (s.current_page + 1, manga.page_paths.length) }

/-- `AppState::check_consensus`: `None` when either map is empty or the first
stored vote is `None`; otherwise the first vote if every stored vote equals
it. -/
def check_consensus (s : AppState) : Option Action :=
  match s.actions, s.users with
  | [], _ => none
  | _, [] => none
  | (_, first_action) :: _, _ :: _ =>
      match first_action with
      | none => none
      | some a =>
          if s.actions.all (fun p => p.2 = some a) then some a else none

/-- `AppState::navigate`: apply one accepted step and clear all votes;
`none` models the panic of an out-of-bounds item index. -/
def navigate (s : AppState) (action : Action) : Option AppState :=
  match action with
  | .next =>
      match s.mangas[s.current_manga]? with
      | none => none
      | some manga =>
          if s.current_page + 1 < manga.page_paths.length then
            some { s with current_page := s.current_page + 1,
                          actions := clearVotes s.actions }
          else if s.current_manga + 1 < s.mangas.length then
            some { s with current_manga := s.current_manga + 1,
                          current_page := 0,
                          actions := clearVotes s.actions }
          else
            some { s with actions := clearVotes s.actions }
  | .prev =>
      if 0 < s.current_page then
        some { s with current_page := s.current_page - 1,
                      actions := clearVotes s.actions }
      else if 0 < s.current_manga then
        match s.mangas[s.current_manga - 1]? with
        | none => none
        | some manga =>
            some { s with current_manga := s.current_manga - 1,
                          current_page :=
                            if 0 < manga.page_paths.length
                            then manga.page_paths.length - 1 else 0,
                          actions := clearVotes s.actions }
      else
        some { s with actions := clearVotes s.actions }

/-- `broadcast_state`: enqueue the current snapshot into every registered
user's outbound queue; `none` models the panic of the snapshot projection. -/
def broadcast_state (s : AppState) : Option AppState :=
  match get_client_state s with
  | none => none
  | some cs =>
      some { s with users := s.users.map (fun p => (p.1, p.2 ++ [cs])) }

/-- The parsed `type` field of a client websocket message; `other` stands for
any unrecognized type string (dropped silently). -/
inductive MsgType where
  | hello
  | next
  | prev
  | other
deriving DecidableEq

/-- The message type that casts a given vote. -/
def msgOf : Action → MsgType
  | .next => .next
  | .prev => .prev

/-- The vote insertion done by the `"next"`/`"prev"` arms of
`handle_client_msg`: `state.actions.insert(user_uuid, Some(action))`. -/
def castVote (s : AppState) (uuid : Nat) (a : Action) : AppState :=
  { s with actions := insertEntry uuid (some a) s.actions }

/-- `handle_client_msg`: record the vote, then navigate and broadcast when
the consensus check reports a direction. -/
def handle_client_msg (s : AppState) (uuid : Nat) (t : MsgType) :
    Option AppState :=
  match t with
  | .hello => some s
  | .next =>
      let s1 := castVote s uuid .next
      match check_consensus s1 with
      | some c => (navigate s1 c).bind broadcast_state
      | none => some s1
  | .prev =>
      let s1 := castVote s uuid .prev
      match check_consensus s1 with
      | some c => (navigate s1 c).bind broadcast_state
      | none => some s1
  | .other => some s

/-- The registration block at the top of `handle_socket`: insert the new
user with an empty outbound queue and a `None` vote. -/
def register (s : AppState) (uuid : Nat) : AppState :=
  { s with users := insertEntry uuid [] s.users,
           actions := insertEntry uuid none s.actions }

/-- The cleanup block at the bottom of `handle_socket`: remove the user and
its vote, then clear every remaining vote. -/
def unregister (s : AppState) (uuid : Nat) : AppState :=
  { s with users := eraseEntry uuid s.users,
           actions := clearVotes (eraseEntry uuid s.actions) }

/-- An image request response: raw bytes with a content type, or a
request-level error string. -/
inductive ImageResp where
  | ok (contentType : String) (bytes : List Nat)
  | err (msg : String)
deriving DecidableEq

/-- `image_handler`, with the file system passed explicitly as a partial map
from paths to byte contents and the (read-only) shared state threaded
through. -/
def image_handler (s : AppState) (fs : String → Option (List Nat))
    (manga page : Nat) : ImageResp × AppState :=
  if s.mangas.length ≤ manga then (.err "Invalid manga index", s)
  else
    match s.mangas[manga]? with
    | none => (.err "Invalid manga index", s)
    | some m =>
        if m.page_paths.length ≤ page then (.err "Invalid page index", s)
        else
          match m.page_paths[page]? with
          | none => (.err "Invalid page index", s)
          | some path =>
              match fs path with
              | some bytes => (.ok "image/webp" bytes, s)
              | none => (.err "Failed to read image", s)

/-- The cursor bounds invariant as an executable predicate: the item index
addresses an item and the page index addresses one of its pages. -/
def cursorInv (s : AppState) : Bool :=
  match s.mangas[s.current_manga]? with
  | none => false
  | some m => s.current_page < m.page_paths.length

/-- Executable well-formedness of the collection: non-empty, and every item
has at least one page. -/
def collOK (s : AppState) : Bool :=
  !s.mangas.isEmpty && s.mangas.all (fun m => !m.page_paths.isEmpty)

/-- Page count of the item at an index (0 when out of bounds). -/
def pagesLen (s : AppState) (i : Nat) : Nat :=
  match s.mangas[i]? with
  | none => 0
  | some m => m.page_paths.length

/-! ### Concrete fixtures (the 2-item collection of the testable scenarios) -/

/-- Item A of the scenarios: 3 pages. -/
def mA : Manga where
  name := "A"
  score := 7
  comment := "good"
  page_paths := ["a0", "a1", "a2"]

/-- Item B of the scenarios: 2 pages. -/
def mB : Manga where
  name := "B"
  score := 5
  comment := ""
  page_paths := ["b0", "b1"]

/-- An item with an empty page list. -/
def mE : Manga where
  name := "E"
  score := 0
  comment := ""
  page_paths := []

/-- Scenario state: collection `[A, B]`, cursor on A's last page, viewers 1
and 2 registered, viewer 1 holding a pending `next` vote. -/
def sAB : AppState where
  mangas := [mA, mB]
  current_manga := 0
  current_page := 2
  users := [(1, []), (2, [])]
  actions := [(1, some Action.next), (2, none)]

/-! ### Helper lemmas on the map operations -/

theorem clearVotes_snd {l : List (Nat × Option Action)}
    {p : Nat × Option Action} (hp : p ∈ clearVotes l) : p.2 = none := by
  simp only [clearVotes, List.mem_map] at hp
  obtain ⟨q, -, rfl⟩ := hp
  rfl

theorem clearVotes_keys (l : List (Nat × Option Action)) :
    (clearVotes l).map Prod.fst = l.map Prod.fst := by
  simp [clearVotes, List.map_map]

theorem lookupEntry_mem {α : Type} {k : Nat} {v : α} {l : List (Nat × α)}
    (h : lookupEntry k l = some v) : (k, v) ∈ l := by
  induction l with
  | nil => simp [lookupEntry] at h
  | cons q rest ih =>
      obtain ⟨k', v'⟩ := q
      simp only [lookupEntry] at h
      split at h
      · next hk => cases h; exact hk ▸ List.mem_cons_self _ _
      · exact List.mem_cons_of_mem _ (ih h)

theorem lookupEntry_isSome_of_mem_keys {α : Type} {k : Nat}
    {l : List (Nat × α)} (h : k ∈ l.map Prod.fst) :
    ∃ v, lookupEntry k l = some v := by
  induction l with
  | nil => simp at h
  | cons q rest ih =>
      obtain ⟨k', v'⟩ := q
      by_cases hk : k' = k
      · exact ⟨v', by simp [lookupEntry, hk]⟩
      · simp only [List.map_cons, List.mem_cons] at h
        rcases h with h | h
        · exact absurd h.symm hk
        · obtain ⟨v, hv⟩ := ih h
          exact ⟨v, by simp [lookupEntry, hk, hv]⟩

theorem lookupEntry_eq_of_nodup {α : Type} {k : Nat} {v : α}
    {l : List (Nat × α)} (hnd : (l.map Prod.fst).Nodup)
    (hm : (k, v) ∈ l) : lookupEntry k l = some v := by
  induction l with
  | nil => simp at hm
  | cons q rest ih =>
      obtain ⟨k', v'⟩ := q
      simp only [List.map_cons, List.nodup_cons] at hnd
      rcases List.mem_cons.mp hm with h1 | h2
      · obtain ⟨rfl, rfl⟩ := Prod.mk.injEq .. ▸ h1
        simp [lookupEntry]
      · by_cases hk : k' = k
        · subst hk
          exact absurd (List.mem_map_of_mem Prod.fst h2) hnd.1
        · simpa [lookupEntry, hk] using ih hnd.2 h2

theorem insertEntry_append {α : Type} {k : Nat} (v : α) {l : List (Nat × α)}
    (h : ∀ p ∈ l, p.1 ≠ k) : insertEntry k v l = l ++ [(k, v)] := by
  induction l with
  | nil => rfl
  | cons q rest ih =>
      obtain ⟨k', v'⟩ := q
      have hk : k' ≠ k := h (k', v') (List.mem_cons_self _ _)
      simp [insertEntry, hk,
        ih (fun p hp => h p (List.mem_cons_of_mem _ hp))]

theorem lookupEntry_insertEntry_self {α : Type} (k : Nat) (v : α)
    (l : List (Nat × α)) : lookupEntry k (insertEntry k v l) = some v := by
  induction l with
  | nil => simp [insertEntry, lookupEntry]
  | cons q rest ih =>
      obtain ⟨k', v'⟩ := q
      by_cases hk : k' = k
      · simp [insertEntry, hk, lookupEntry]
      · simp [insertEntry, hk, lookupEntry, ih]

theorem eraseEntry_fst_ne {α : Type} {k : Nat} {l : List (Nat × α)}
    {p : Nat × α} (hp : p ∈ eraseEntry k l) : p.1 ≠ k := by
  simp only [eraseEntry, List.mem_filter, bne_iff_ne, ne_eq] at hp
  exact hp.2

/-! ### Characterizations of the executable predicates and the consensus
check -/

theorem cursorInv_iff (s : AppState) :
    cursorInv s = true ↔
      ∃ m, s.mangas[s.current_manga]? = some m ∧
        s.current_page < m.page_paths.length := by
  unfold cursorInv
  rcases h : s.mangas[s.current_manga]? with - | m <;> simp [h]

theorem collOK_iff (s : AppState) :
    collOK s = true ↔
      s.mangas ≠ [] ∧ ∀ m ∈ s.mangas, m.page_paths ≠ [] := by
  simp [collOK, List.all_eq_true, List.isEmpty_iff, List.isEmpty_eq_false]

theorem check_consensus_eq_some_iff (s : AppState) (d : Action) :
    check_consensus s = some d ↔
      (s.actions ≠ [] ∧ s.users ≠ [] ∧ ∀ p ∈ s.actions, p.2 = some d) := by
  rcases hA : s.actions with - | ⟨⟨k0, a0⟩, restA⟩
  · simp [check_consensus, hA]
  · rcases hU : s.users with - | ⟨u0, restU⟩
    · simp [check_consensus, hA, hU]
    · rcases a0 with - | a
      · simp only [check_consensus, hA, hU, ne_eq, reduceCtorEq,
          not_false_eq_true, true_and]
        constructor
        · rintro ⟨⟩
        · intro hall
          have := hall (k0, none) (List.mem_cons_self _ _)
          simp at this
      · simp only [check_consensus, hA, hU, ne_eq, reduceCtorEq,
          not_false_eq_true, true_and]
        by_cases hall : ∀ p ∈ (k0, some a) :: restA, p.2 = some a
        · rw [if_pos (by rw [List.all_eq_true]; intro p hp; simpa using hall p hp)]
          constructor
          · intro h
            cases h
            exact hall
          · intro h
            have hd := h (k0, some a) (List.mem_cons_self _ _)
            simp only at hd
            exact congrArg some (Option.some.inj hd)
        · rw [if_neg (by
            intro hc
            rw [List.all_eq_true] at hc
            exact hall fun p hp => by simpa using hc p hp)]
          constructor
          · rintro ⟨⟩
          · intro h
            exfalso
            apply hall
            intro p hp
            have hd := h (k0, some a) (List.mem_cons_self _ _)
            simp only at hd
            rw [Option.some.inj hd]
            exact h p hp

theorem getElem?_lt {α : Type} {l : List α} {i : Nat} {x : α}
    (h : l[i]? = some x) : i < l.length := by
  rcases Nat.lt_or_ge i l.length with h' | h'
  · exact h'
  · rw [List.getElem?_eq_none h'] at h
    cases h

/-- On a well-formed collection with an in-bounds cursor, `navigate` never
hits the panicking index: it returns a state with the same collection and
users, all votes cleared, and an in-bounds cursor again. -/
theorem navigate_total (s : AppState) (hcoll : collOK s = true)
    (hcur : cursorInv s = true) (a : Action) :
    ∃ s2, navigate s a = some s2 ∧ s2.mangas = s.mangas ∧
      s2.users = s.users ∧ s2.actions = clearVotes s.actions ∧
      cursorInv s2 = true := by
  obtain ⟨m, hm, hp⟩ := (cursorInv_iff s).mp hcur
  obtain ⟨-, hpages⟩ := (collOK_iff s).mp hcoll
  have hlen : s.current_manga < s.mangas.length := by
    rcases Nat.lt_or_ge s.current_manga s.mangas.length with h | h
    · exact h
    · rw [List.getElem?_eq_none h] at hm
      cases hm
  cases a with
  | next =>
      by_cases h1 : s.current_page + 1 < m.page_paths.length
      · refine ⟨{ s with current_page := s.current_page + 1,
                         actions := clearVotes s.actions },
          by simp [navigate, hm, h1], rfl, rfl, rfl, ?_⟩
        rw [cursorInv_iff]
        exact ⟨m, hm, h1⟩
      · by_cases h2 : s.current_manga + 1 < s.mangas.length
        · refine ⟨{ s with current_manga := s.current_manga + 1,
                           current_page := 0,
                           actions := clearVotes s.actions },
            by simp [navigate, hm, h1, h2], rfl, rfl, rfl, ?_⟩
          rw [cursorInv_iff]
          refine ⟨s.mangas[s.current_manga + 1], List.getElem?_eq_getElem h2, ?_⟩
          exact List.length_pos.mpr (hpages _ (List.getElem_mem ..))
        · refine ⟨{ s with actions := clearVotes s.actions },
            by simp [navigate, hm, h1, h2], rfl, rfl, rfl, ?_⟩
          rw [cursorInv_iff]
          exact ⟨m, hm, hp⟩
  | prev =>
      by_cases h1 : 0 < s.current_page
      · refine ⟨{ s with current_page := s.current_page - 1,
                         actions := clearVotes s.actions },
          by simp [navigate, h1], rfl, rfl, rfl, ?_⟩
        rw [cursorInv_iff]
        exact ⟨m, hm, Nat.lt_of_le_of_lt (Nat.pred_le _) hp⟩
      · by_cases h2 : 0 < s.current_manga
        · have h3 : s.current_manga - 1 < s.mangas.length :=
            Nat.lt_of_le_of_lt (Nat.pred_le _) hlen
          have hm' : s.mangas[s.current_manga - 1]? =
              some s.mangas[s.current_manga - 1] := List.getElem?_eq_getElem h3
          have hpos : 0 < s.mangas[s.current_manga - 1].page_paths.length :=
            List.length_pos.mpr (hpages _ (List.getElem_mem ..))
          refine ⟨{ s with current_manga := s.current_manga - 1,
                           current_page :=
                             if 0 < s.mangas[s.current_manga - 1].page_paths.length
                             then s.mangas[s.current_manga - 1].page_paths.length - 1
                             else 0,
                           actions := clearVotes s.actions },
            by simp [navigate, h1, h2, hm'], rfl, rfl, rfl, ?_⟩
          rw [cursorInv_iff]
          refine ⟨s.mangas[s.current_manga - 1], hm', ?_⟩
          simp only [if_pos hpos]
          exact Nat.pred_lt (Nat.pos_iff_ne_zero.mp hpos)
        · refine ⟨{ s with actions := clearVotes s.actions },
            by simp [navigate, h1, h2], rfl, rfl, rfl, ?_⟩
          rw [cursorInv_iff]
          exact ⟨m, hm, hp⟩

/-! ### Claim theorems -/

/-- C4: unregistering a viewer removes that viewer and its vote, resets
every remaining viewer's vote to none, and never moves the cursor — even
when the departed viewer's removal would make the remaining pending votes
unanimous. -/
theorem unregister_spec (s : AppState) (uuid : Nat) :
    (unregister s uuid).users = eraseEntry uuid s.users
    ∧ (∀ p ∈ (unregister s uuid).users, p.1 ≠ uuid)
    ∧ (unregister s uuid).actions.map Prod.fst =
        (eraseEntry uuid s.actions).map Prod.fst
    ∧ (∀ p ∈ (unregister s uuid).actions, p.1 ≠ uuid)
    ∧ (∀ p ∈ (unregister s uuid).actions, p.2 = none)
    ∧ (unregister s uuid).current_manga = s.current_manga
    ∧ (unregister s uuid).current_page = s.current_page := by
  refine ⟨rfl, fun p hp => eraseEntry_fst_ne hp, clearVotes_keys _, ?_,
    fun p hp => clearVotes_snd hp, rfl, rfl⟩
  intro p hp
  simp only [unregister, clearVotes, List.mem_map] at hp
  obtain ⟨q, hq, rfl⟩ := hp
  have hq1 := eraseEntry_fst_ne hq
  exact hq1

/-- C10: a retreat that crosses into a previous item whose page list is
empty sets the page index to 0 instead of computing it as length - 1:
`navigate` is total there (returns a state, no panic). -/
theorem retreat_to_empty_item (s : AppState) (m : Manga)
    (h0 : s.current_page = 0) (h1 : 0 < s.current_manga)
    (h2 : s.mangas[s.current_manga - 1]? = some m)
    (h3 : m.page_paths = []) :
    navigate s Action.prev =
      some { s with current_manga := s.current_manga - 1,
                    current_page := 0,
                    actions := clearVotes s.actions } := by
  simp [navigate, h0, h1, h2, h3]

/-- C10 witness: in the collection `[E (no pages), B]` with cursor (1,0), a
retreat lands on `(0, 0)`. -/
theorem retreat_to_empty_item_witness :
    navigate { mangas := [mE, mB], current_manga := 1, current_page := 0,
               users := [(1, [])], actions := [(1, none)] } Action.prev =
      some { mangas := [mE, mB], current_manga := 0, current_page := 0,
             users := [(1, [])], actions := [(1, none)] } :=
  retreat_to_empty_item _ mE rfl (by decide) (by decide) rfl

/-- C3 counterexample: in state `sAB` viewer 1 holds a pending `next` vote
and 3 is not registered; after `register`ing viewer 3, viewer 1's vote is
still `next` — a join does not reset the other viewers' votes. -/
theorem register_keeps_votes_cex :
    (∀ p ∈ sAB.users, p.1 ≠ 3) ∧
    lookupEntry 1 (register sAB 3).actions = some (some Action.next) := by
  decide

/-- C3 (amended): registering a new viewer adds that viewer with vote none
and leaves every other viewer's entry — in particular its vote — and the
cursor unchanged. -/
theorem register_spec (s : AppState) (uuid : Nat)
    (hu : ∀ p ∈ s.users, p.1 ≠ uuid) (ha : ∀ p ∈ s.actions, p.1 ≠ uuid) :
    register s uuid =
      { s with users := s.users ++ [(uuid, [])],
               actions := s.actions ++ [(uuid, none)] } := by
  unfold register
  rw [insertEntry_append _ hu, insertEntry_append _ ha]

/-- C3 witness: registering the fresh viewer 3 in `sAB` appends it with
vote none, keeping the existing entries. -/
theorem register_spec_witness :
    register sAB 3 =
      { sAB with users := sAB.users ++ [(3, [])],
                 actions := sAB.actions ++ [(3, none)] } :=
  register_spec sAB 3 (by decide) (by decide)

/-- C6 counterexample: viewer 5 is not registered in `sAB`, yet its "next"
message mutates the vote map (the vote is inserted unconditionally), so the
cast is not a no-op. -/
theorem castVote_unregistered_cex :
    (∀ p ∈ sAB.users, p.1 ≠ 5) ∧
    handle_client_msg sAB 5 MsgType.next = some (castVote sAB 5 Action.next) ∧
    (castVote sAB 5 Action.next).actions ≠ sAB.actions := by
  decide

/-- C6 (amended): a "next"/"prev" message from an unregistered id inserts
that id's vote into the vote map exactly as for a registered viewer and
then runs the same consensus check; the viewer registry is unchanged, and
when that check reports no direction the cursor is unchanged as well. -/
theorem castVote_unregistered_spec (s : AppState) (uuid : Nat) (a : Action)
    (_hu : ∀ p ∈ s.users, p.1 ≠ uuid) :
    (castVote s uuid a).users = s.users ∧
    (castVote s uuid a).current_manga = s.current_manga ∧
    (castVote s uuid a).current_page = s.current_page ∧
    lookupEntry uuid (castVote s uuid a).actions = some (some a) ∧
    (check_consensus (castVote s uuid a) = none →
      handle_client_msg s uuid (msgOf a) = some (castVote s uuid a)) := by
  refine ⟨rfl, rfl, rfl, lookupEntry_insertEntry_self .., ?_⟩
  intro hnone
  cases a <;> simp [handle_client_msg, msgOf, hnone]

/-- C6 witness: the unregistered viewer 5's "next" vote lands in `sAB`'s
vote map and, with no consensus, the handler returns exactly that
vote-inserted state. -/
theorem castVote_unregistered_spec_witness :
    lookupEntry 5 (castVote sAB 5 Action.next).actions =
        some (some Action.next) ∧
    handle_client_msg sAB 5 MsgType.next = some (castVote sAB 5 Action.next) :=
  ⟨(castVote_unregistered_spec sAB 5 Action.next (by decide)).2.2.2.1,
   (castVote_unregistered_spec sAB 5 Action.next (by decide)).2.2.2.2
     (by decide)⟩

/-- C9 counterexample: starting with the empty collection is not rejected —
`from_displayed []` constructs the steady state with cursor (0,0), and the
snapshot read on that state is what faults (no snapshot exists). -/
theorem startup_accepts_empty_cex :
    from_displayed [] =
      { mangas := [], current_manga := 0, current_page := 0,
        users := [], actions := [] } ∧
    get_client_state (from_displayed []) = none :=
  ⟨rfl, rfl⟩

/-- C9 (amended): initialization performs no validation: `from_displayed`
builds the state with cursor (0,0) and empty registries for every input
collection, and for the empty collection the fault is deferred to the first
snapshot read, which hits the out-of-bounds item index. -/
theorem startup_no_validation (mangas : List Manga) :
    (from_displayed mangas).mangas = mangas ∧
    (from_displayed mangas).current_manga = 0 ∧
    (from_displayed mangas).current_page = 0 ∧
    (from_displayed mangas).users = [] ∧
    (from_displayed mangas).actions = [] ∧
    (mangas = [] → get_client_state (from_displayed mangas) = none) := by
  refine ⟨rfl, rfl, rfl, rfl, rfl, ?_⟩
  rintro rfl
  rfl

/-- C9 witness: on the empty collection, startup succeeds with cursor (0,0)
and the first snapshot read yields nothing. -/
theorem startup_no_validation_witness :
    get_client_state (from_displayed []) = none ∧
    (from_displayed []).current_manga = 0 :=
  ⟨(startup_no_validation []).2.2.2.2.2 rfl, (startup_no_validation []).2.1⟩

/-- C2: on a collection whose items all have at least one page and a cursor
satisfying the bounds invariant, an accepted advance moves to pageIndex+1
when not on the item's last page, else to (itemIndex+1, 0) when not on the
last item, else leaves the cursor unchanged; an accepted retreat moves to
pageIndex-1 when pageIndex > 0, else to (itemIndex-1, last page of that
item) when itemIndex > 0, else leaves the cursor unchanged; in every case
all votes become none. -/
theorem navigate_step_spec (s : AppState) (hcoll : collOK s = true)
    (hcur : cursorInv s = true) :
    navigate s Action.next = some
      { s with
        current_manga :=
          if s.current_page + 1 < pagesLen s s.current_manga then
            s.current_manga
          else if s.current_manga + 1 < s.mangas.length then
            s.current_manga + 1
          else s.current_manga,
        current_page :=
          if s.current_page + 1 < pagesLen s s.current_manga then
            s.current_page + 1
          else if s.current_manga + 1 < s.mangas.length then 0
          else s.current_page,
        actions := clearVotes s.actions }
    ∧ navigate s Action.prev = some
      { s with
        current_manga :=
          if 0 < s.current_page then s.current_manga
          else if 0 < s.current_manga then s.current_manga - 1
          else s.current_manga,
        current_page :=
          if 0 < s.current_page then s.current_page - 1
          else if 0 < s.current_manga then
            pagesLen s (s.current_manga - 1) - 1
          else s.current_page,
        actions := clearVotes s.actions } := by
  obtain ⟨m, hm, hp⟩ := (cursorInv_iff s).mp hcur
  obtain ⟨-, hpages⟩ := (collOK_iff s).mp hcoll
  have hpl : pagesLen s s.current_manga = m.page_paths.length := by
    simp [pagesLen, hm]
  constructor
  · by_cases h1 : s.current_page + 1 < m.page_paths.length
    · simp [navigate, hm, h1, hpl]
    · by_cases h2 : s.current_manga + 1 < s.mangas.length <;>
        simp [navigate, hm, h1, h2, hpl]
  · by_cases h1 : 0 < s.current_page
    · simp [navigate, h1]
    · by_cases h2 : 0 < s.current_manga
      · have h3 : s.current_manga - 1 < s.mangas.length :=
          Nat.lt_of_le_of_lt (Nat.pred_le _) (getElem?_lt hm)
        have hm' : s.mangas[s.current_manga - 1]? =
            some s.mangas[s.current_manga - 1] := List.getElem?_eq_getElem h3
        have hpos : 0 < s.mangas[s.current_manga - 1].page_paths.length :=
          List.length_pos.mpr (hpages _ (List.getElem_mem ..))
        have hpl' : pagesLen s (s.current_manga - 1) =
            s.mangas[s.current_manga - 1].page_paths.length := by
          simp [pagesLen, hm']
        simp [navigate, h1, h2, hm', hpos, hpl']
      · simp [navigate, h1, h2]

/-- C2 witness: Scenario A's collection, cursor on A's last page: an advance
lands on (1, 0) and a retreat on (0, 1), with all votes cleared. -/
theorem navigate_step_spec_witness :
    navigate sAB Action.next = some
      { sAB with current_manga := 1, current_page := 0,
                 actions := clearVotes sAB.actions }
    ∧ navigate sAB Action.prev = some
      { sAB with current_manga := 0, current_page := 1,
                 actions := clearVotes sAB.actions } :=
  navigate_step_spec sAB (by decide) (by decide)

/-- C8: an image request with an out-of-bounds manga or page index yields a
request-level error and leaves the shared state unchanged (the handler
always returns the state it was given); in-bounds indices with an
unreadable file yield a request-level error; a readable file yields its raw
bytes with the image content type. -/
theorem image_handler_spec (s : AppState) (fs : String → Option (List Nat))
    (manga page : Nat) :
    (image_handler s fs manga page).2 = s
    ∧ (s.mangas.length ≤ manga →
        (image_handler s fs manga page).1 =
          ImageResp.err "Invalid manga index")
    ∧ (∀ m, s.mangas[manga]? = some m → m.page_paths.length ≤ page →
        (image_handler s fs manga page).1 =
          ImageResp.err "Invalid page index")
    ∧ (∀ m path, s.mangas[manga]? = some m →
        m.page_paths[page]? = some path → fs path = none →
        (image_handler s fs manga page).1 =
          ImageResp.err "Failed to read image")
    ∧ (∀ m path bytes, s.mangas[manga]? = some m →
        m.page_paths[page]? = some path → fs path = some bytes →
        (image_handler s fs manga page).1 =
          ImageResp.ok "image/webp" bytes) := by
  refine ⟨?_, ?_, ?_, ?_, ?_⟩
  · by_cases h1 : s.mangas.length ≤ manga
    · simp [image_handler, h1]
    · rcases hm : s.mangas[manga]? with - | m
      · simp [image_handler, h1, hm]
      · by_cases h2 : m.page_paths.length ≤ page
        · simp [image_handler, h1, hm, h2]
        · rcases hpath : m.page_paths[page]? with - | path
          · simp [image_handler, h1, hm, h2, hpath]
          · rcases hfs : fs path with - | bytes <;>
              simp [image_handler, h1, hm, h2, hpath, hfs]
  · intro h1
    simp [image_handler, h1]
  · intro m hm h2
    have h1 : ¬ s.mangas.length ≤ manga := Nat.not_le.mpr (getElem?_lt hm)
    simp [image_handler, h1, hm, h2]
  · intro m path hm hpath hfs
    have h1 : ¬ s.mangas.length ≤ manga := Nat.not_le.mpr (getElem?_lt hm)
    have h2 : ¬ m.page_paths.length ≤ page :=
      Nat.not_le.mpr (getElem?_lt hpath)
    simp [image_handler, h1, hm, h2, hpath, hfs]
  · intro m path bytes hm hpath hfs
    have h1 : ¬ s.mangas.length ≤ manga := Nat.not_le.mpr (getElem?_lt hm)
    have h2 : ¬ m.page_paths.length ≤ page :=
      Nat.not_le.mpr (getElem?_lt hpath)
    simp [image_handler, h1, hm, h2, hpath, hfs]

/-- C8 witness: Scenario D — requesting manga index 5 against the 2-item
collection returns the out-of-range error and the state untouched. -/
theorem image_handler_spec_witness :
    (image_handler sAB (fun _ => none) 5 0).1 =
        ImageResp.err "Invalid manga index" ∧
    (image_handler sAB (fun _ => none) 5 0).2 = sAB :=
  ⟨(image_handler_spec sAB (fun _ => none) 5 0).2.1 (by decide),
   (image_handler_spec sAB (fun _ => none) 5 0).1⟩

/-- C1: on states whose vote map and viewer registry hold the same keys
(the invariant the two `HashMap`s maintain), the consensus check reports a
direction iff the viewer set is non-empty and every registered viewer's
stored vote equals that direction; and after a vote cast that yields no
consensus the handler returns the vote-inserted state, cursor unchanged. -/
theorem consensus_spec (s : AppState) (d : Action)
    (hsync : ∀ k, k ∈ s.actions.map Prod.fst ↔ k ∈ s.users.map Prod.fst)
    (hnd : (s.actions.map Prod.fst).Nodup) :
    (check_consensus s = some d ↔
      (s.users ≠ [] ∧
        ∀ u ∈ s.users, lookupEntry u.1 s.actions = some (some d)))
    ∧ (∀ uuid a, check_consensus (castVote s uuid a) = none →
        handle_client_msg s uuid (msgOf a) = some (castVote s uuid a) ∧
        (castVote s uuid a).current_manga = s.current_manga ∧
        (castVote s uuid a).current_page = s.current_page) := by
  constructor
  · rw [check_consensus_eq_some_iff]
    constructor
    · rintro ⟨-, hU, hall⟩
      refine ⟨hU, ?_⟩
      intro u hu
      have hk : u.1 ∈ s.actions.map Prod.fst :=
        (hsync u.1).mpr (List.mem_map_of_mem Prod.fst hu)
      obtain ⟨v, hv⟩ := lookupEntry_isSome_of_mem_keys hk
      rw [hv]
      exact congrArg some (hall _ (lookupEntry_mem hv))
    · rintro ⟨hU, hall⟩
      have hA : s.actions ≠ [] := by
        obtain ⟨u, hu⟩ := List.exists_mem_of_ne_nil s.users hU
        exact List.ne_nil_of_mem (lookupEntry_mem (hall u hu))
      refine ⟨hA, hU, ?_⟩
      intro p hpmem
      have hk : p.1 ∈ s.users.map Prod.fst :=
        (hsync p.1).mp (List.mem_map_of_mem Prod.fst hpmem)
      obtain ⟨u, hu, hu1⟩ := List.mem_map.mp hk
      have hl := hall u hu
      rw [hu1] at hl
      have hl2 : lookupEntry p.1 s.actions = some p.2 :=
        lookupEntry_eq_of_nodup hnd hpmem
      rw [hl2] at hl
      exact Option.some.inj hl
  · intro uuid a hnone
    refine ⟨?_, rfl, rfl⟩
    cases a <;> simp [handle_client_msg, msgOf, hnone]

/-- C1 witness: with both viewers of the scenario state voting `next`, the
consensus check reports `next`. -/
theorem consensus_spec_witness :
    check_consensus
      { sAB with actions := [(1, some Action.next), (2, some Action.next)] }
      = some Action.next :=
  (consensus_spec
      { sAB with actions := [(1, some Action.next), (2, some Action.next)] }
      Action.next (fun _ => Iff.rfl) (by decide)).1.mpr (by decide)

/-- C5: whenever a vote cast yields consensus, the handler navigates, all
votes are cleared, and the snapshot of the resulting cursor — item title,
resolved page address, score, comment, 1-based item and page positions with
their totals — is enqueued to every currently registered viewer's outbound
queue (the registry itself being unchanged, this includes the voter). -/
theorem vote_consensus_broadcast (s : AppState) (uuid : Nat) (a c : Action)
    (hcoll : collOK s = true) (hcur : cursorInv s = true)
    (hcons : check_consensus (castVote s uuid a) = some c) :
    ∃ s2 cs,
      navigate (castVote s uuid a) c = some s2 ∧
      get_client_state s2 = some cs ∧
      handle_client_msg s uuid (msgOf a) =
        some { s2 with users := s2.users.map (fun p => (p.1, p.2 ++ [cs])) } ∧
      (∀ p ∈ s2.actions, p.2 = none) ∧
      s2.users = s.users ∧
      (∃ m, s2.mangas[s2.current_manga]? = some m ∧
        cs = { manga_name := m.name,
               page_src := page_src_of s2.current_manga s2.current_page,
               manga_score := m.score,
               manga_comment := m.comment,
               manga_pos := (s2.current_manga + 1, s2.mangas.length),
               page_pos := (s2.current_page + 1, m.page_paths.length) }) := by
  have hcoll1 : collOK (castVote s uuid a) = true := hcoll
  have hcur1 : cursorInv (castVote s uuid a) = true := hcur
  obtain ⟨s2, hnav, hmangas, husers, hactions, hcur2⟩ :=
    navigate_total (castVote s uuid a) hcoll1 hcur1 c
  obtain ⟨m, hm, hp⟩ := (cursorInv_iff s2).mp hcur2
  have hcs : get_client_state s2 = some
      { manga_name := m.name,
        page_src := page_src_of s2.current_manga s2.current_page,
        manga_score := m.score,
        manga_comment := m.comment,
        manga_pos := (s2.current_manga + 1, s2.mangas.length),
        page_pos := (s2.current_page + 1, m.page_paths.length) } := by
    simp [get_client_state, hm]
  refine ⟨s2, _, hnav, hcs, ?_, ?_, ?_, ⟨m, hm, rfl⟩⟩
  · cases a <;>
      simp [handle_client_msg, msgOf, hcons, hnav, broadcast_state, hcs]
  · intro p hp2
    rw [hactions] at hp2
    exact clearVotes_snd hp2
  · exact husers

/-- C5 witness: in the scenario state, viewer 2's `next` vote completes the
consensus; the broadcast of the new snapshot is observable. -/
theorem vote_consensus_broadcast_witness :
    ∃ s2 cs,
      navigate (castVote sAB 2 Action.next) Action.next = some s2 ∧
      get_client_state s2 = some cs ∧
      handle_client_msg sAB 2 (msgOf Action.next) =
        some { s2 with users := s2.users.map (fun p => (p.1, p.2 ++ [cs])) } ∧
      (∀ p ∈ s2.actions, p.2 = none) ∧
      s2.users = sAB.users ∧
      (∃ m, s2.mangas[s2.current_manga]? = some m ∧
        cs = { manga_name := m.name,
               page_src := page_src_of s2.current_manga s2.current_page,
               manga_score := m.score,
               manga_comment := m.comment,
               manga_pos := (s2.current_manga + 1, s2.mangas.length),
               page_pos := (s2.current_page + 1, m.page_paths.length) }) :=
  vote_consensus_broadcast sAB 2 Action.next Action.next
    (by decide) (by decide) (by decide)

/-- C7: on a non-empty collection whose items all have at least one page,
the cursor bounds invariant holds in the initial state and is preserved by
registering, unregistering, navigating, and handling any client message. -/
theorem cursor_invariant (mangas : List Manga) (h1 : mangas ≠ [])
    (h2 : ∀ m ∈ mangas, m.page_paths ≠ []) :
    cursorInv (from_displayed mangas) = true
    ∧ (∀ s uuid, cursorInv s = true → cursorInv (register s uuid) = true)
    ∧ (∀ s uuid, cursorInv s = true → cursorInv (unregister s uuid) = true)
    ∧ (∀ s a s2, collOK s = true → cursorInv s = true →
        navigate s a = some s2 → cursorInv s2 = true)
    ∧ (∀ s uuid t s2, collOK s = true → cursorInv s = true →
        handle_client_msg s uuid t = some s2 → cursorInv s2 = true) := by
  refine ⟨?_, fun s uuid h => h, fun s uuid h => h, ?_, ?_⟩
  · rw [cursorInv_iff]
    rcases mangas with - | ⟨m0, rest⟩
    · cases h1 rfl
    · exact ⟨m0, by simp [from_displayed],
        List.length_pos.mpr (h2 m0 (List.mem_cons_self _ _))⟩
  · intro s a s2 hcoll hcur hnav
    obtain ⟨s2', hnav', -, -, -, hcur2⟩ := navigate_total s hcoll hcur a
    rw [hnav'] at hnav
    cases hnav
    exact hcur2
  · intro s uuid t s2 hcoll hcur hmsg
    cases t with
    | hello => cases hmsg; exact hcur
    | other => cases hmsg; exact hcur
    | next =>
        rcases hcc : check_consensus (castVote s uuid Action.next) with - | c
        · simp only [handle_client_msg, hcc] at hmsg
          cases hmsg
          exact hcur
        · simp only [handle_client_msg, hcc] at hmsg
          obtain ⟨s3, hnav3, -, -, -, hcur3⟩ :=
            navigate_total (castVote s uuid Action.next) hcoll hcur c
          rw [hnav3] at hmsg
          obtain ⟨m3, hm3, -⟩ := (cursorInv_iff s3).mp hcur3
          simp only [Option.some_bind, broadcast_state, get_client_state,
            hm3] at hmsg
          cases hmsg
          exact hcur3
    | prev =>
        rcases hcc : check_consensus (castVote s uuid Action.prev) with - | c
        · simp only [handle_client_msg, hcc] at hmsg
          cases hmsg
          exact hcur
        · simp only [handle_client_msg, hcc] at hmsg
          obtain ⟨s3, hnav3, -, -, -, hcur3⟩ :=
            navigate_total (castVote s uuid Action.prev) hcoll hcur c
          rw [hnav3] at hmsg
          obtain ⟨m3, hm3, -⟩ := (cursorInv_iff s3).mp hcur3
          simp only [Option.some_bind, broadcast_state, get_client_state,
            hm3] at hmsg
          cases hmsg
          exact hcur3

/-- C7 witness: the invariant holds in the initial state of the scenario
collection. -/
theorem cursor_invariant_witness :
    cursorInv (from_displayed [mA, mB]) = true :=
  (cursor_invariant [mA, mB] (by decide) (by decide)).1

end MangaWeb
